import Mathlib

/-!
Verification development for the HERCULE surveillance pipeline.

The Python sources are shallowly embedded: pandas dataframes become lists of
records, numeric cells (floats after `pd.to_numeric(..., errors='coerce')`)
become `Option ℚ` (with `none` standing for NaN / missing), the filesystem
cache becomes an explicit list of files, and exceptions become `Except` or
`Option` results.  All definitions follow `main.py`,
`src/extraction/data_processor.py`, `src/utils/serialiser.py`,
`src/graph/context_builder.py` and `src/storage/neo4j_manager.py`.
-/

namespace Hercule

/-- A subject-predicate-object triple, as produced by the pipeline. -/
abbrev Triple := String × String × String

/-! ### Raw feed records and `parse_data`

A raw feed row carries the `SpatialDim`, `TimeDim` and `NumericValue` fields.
A field can be absent from the row (the key is missing), can be JSON null, or
can hold a value.  `pd.to_numeric(..., errors='coerce')` maps numbers and
numeric strings to numbers and everything else to NaN; we model a cell that
coerces as `num` and a non-coercible string as `nonNum`. -/

/-- A raw string-valued cell (`SpatialDim`). -/
inductive RawStr
  | absent
  | null
  | val (s : String)
deriving DecidableEq, Repr

/-- A raw numeric cell (`TimeDim`, `NumericValue`).  `num` covers numbers and
numeric strings (which `pd.to_numeric` coerces); `nonNum` is a string that
does not coerce. -/
inductive RawNum
  | absent
  | null
  | num (q : ℚ)
  | nonNum (s : String)
deriving DecidableEq, Repr

/-- One raw record from the feed. -/
structure RawRecord where
  spatialDim : RawStr
  timeDim : RawNum
  numericValue : RawNum
deriving DecidableEq, Repr

/-- The raw payload handed to `parse_data`: either not a list at all
(shape-validation failure) or a list of raw records. -/
inductive RawData
  | notList
  | list (rs : List RawRecord)
deriving DecidableEq, Repr

/-- A normalized record (one dataframe row after `parse_data`):
`Country`, `Year`, `Cases`, with `none` standing for NaN. -/
structure Record where
  country : Option String
  year : Option ℚ
  cases : Option ℚ
deriving DecidableEq, Repr

/-- The `Country` cell produced from a raw `SpatialDim` cell: an absent key or
a JSON null become NaN (`none`). -/
def asCountry : RawStr → Option String
  | .absent => none
  | .null => none
  | .val s => some s

/-- `pd.to_numeric(..., errors='coerce')` on one cell. -/
def coerceNum : RawNum → Option ℚ
  | .absent => none
  | .null => none
  | .num q => some q
  | .nonNum _ => none

/-- Is the field present on this row? -/
def RawStr.isAbsent : RawStr → Bool
  | .absent => true
  | _ => false

/-- Is the field present on this row? -/
def RawNum.isAbsent : RawNum → Bool
  | .absent => true
  | _ => false

/-- A pandas dataframe built from a list of dicts has a column iff some dict
carries the key; `parse_data` raises (and returns empty) when any of the three
expected columns is missing. -/
def columnsPresent (rs : List RawRecord) : Bool :=
  (rs.any fun r => !r.spatialDim.isAbsent) &&
  (rs.any fun r => !r.timeDim.isAbsent) &&
  (rs.any fun r => !r.numericValue.isAbsent)

/-- `parse_data` from `src/extraction/data_processor.py`: shape validation and
missing columns yield an empty dataframe (the internal `try/except`), otherwise
every row is kept with its `Year`/`Cases` cells coerced to numbers or NaN. -/
def parse_data : RawData → List Record
  | .notList => []
  | .list rs =>
      if columnsPresent rs then
        rs.map fun r =>
          ⟨asCountry r.spatialDim, coerceNum r.timeDim, coerceNum r.numericValue⟩
      else []

/-! ### `clean_latest_records` -/

/-- Lexicographic order on character lists by code point — the order Python
(and hence pandas `sort_values` on a string column) sorts strings by. -/
def lexLe : List Char → List Char → Bool
  | [], _ => true
  | _ :: _, [] => false
  | c :: cs, d :: ds => if c = d then lexLe cs ds else decide (c < d)

/-- Lexicographic order on strings by code point. -/
def strLe (a b : String) : Prop := lexLe a.data b.data = true

instance : DecidableRel strLe := fun a b =>
  inferInstanceAs (Decidable (lexLe a.data b.data = true))

theorem lexLe_total : ∀ a b : List Char, lexLe a b = true ∨ lexLe b a = true := by
  intro a
  induction a with
  | nil => intro b; exact Or.inl rfl
  | cons c cs ih =>
      intro b
      cases b with
      | nil => exact Or.inr rfl
      | cons d ds =>
          by_cases h : c = d
          · subst h
            simpa [lexLe] using ih ds
          · rcases lt_or_gt_of_ne h with hlt | hgt
            · exact Or.inl (by simp [lexLe, h, hlt])
            · exact Or.inr (by simp [lexLe, Ne.symm h, hgt])

theorem lexLe_trans : ∀ a b c : List Char,
    lexLe a b = true → lexLe b c = true → lexLe a c = true := by
  intro a
  induction a with
  | nil => intro b c _ _; rfl
  | cons x xs ih =>
      intro b c hab hbc
      cases b with
      | nil => simp [lexLe] at hab
      | cons y ys =>
          cases c with
          | nil => simp [lexLe] at hbc
          | cons z zs =>
              by_cases hxy : x = y
              · subst hxy
                by_cases hyz : x = z
                · subst hyz
                  simp only [lexLe, if_pos rfl] at hab hbc ⊢
                  exact ih ys zs hab hbc
                · simp only [lexLe, if_pos rfl] at hab
                  simp only [lexLe, if_neg hyz] at hbc ⊢
                  exact hbc
              · simp only [lexLe, if_neg hxy, decide_eq_true_eq] at hab
                by_cases hyz : y = z
                · subst hyz
                  simp only [lexLe, if_neg hxy, decide_eq_true_eq]
                  exact hab
                · simp only [lexLe, if_neg hyz, decide_eq_true_eq] at hbc
                  have hxz : x < z := lt_trans hab hbc
                  simp only [lexLe, if_neg (ne_of_lt hxz), decide_eq_true_eq]
                  exact hxz

instance : IsTotal String strLe := ⟨fun a b => lexLe_total a.data b.data⟩

instance : IsTrans String strLe :=
  ⟨fun a b c hab hbc => lexLe_trans a.data b.data c.data hab hbc⟩

/-- The row filter of `clean_latest_records`:
`df.query("Year >= @min_year").dropna(subset=['Country', 'Year'])`.
A NaN year fails the comparison and is also dropped by `dropna`. -/
def qualifies (min_year : ℚ) (r : Record) : Bool :=
  (match r.year with
   | some y => decide (min_year ≤ y)
   | none => false) && r.country.isSome

/-- The rows of one `groupby('Country')` group, in dataframe order. -/
def groupFor (rs : List Record) (c : String) : List Record :=
  rs.filter fun r => decide (r.country = some c)

/-- `['Year'].idxmax()` for one group followed by `.loc`: the first row of the
group whose year attains the group's maximum year. -/
def pickLatest (rs : List Record) (c : String) : Option Record :=
  match ((groupFor rs c).filterMap Record.year).max? with
  | none => none
  | some m => (groupFor rs c).find? fun r => decide (r.year = some m)

/-- The filtered dataframe `processed_df` of `clean_latest_records`. -/
def processedRecords (df : List Record) (min_year : ℚ) : List Record :=
  df.filter (qualifies min_year)

/-- The distinct country codes of the filtered dataframe, in sorted order —
the keys of `groupby('Country')` (which sorts its keys; the final
`sort_values('Country')` is stable and keeps this order). -/
def sortedCountries (df : List Record) (min_year : ℚ) : List String :=
  ((processedRecords df min_year).filterMap Record.country).dedup.insertionSort strLe

/-- `clean_latest_records` from `src/extraction/data_processor.py`: filter by
year and non-null country, then per country (in sorted key order) take the
first row attaining the group's maximum year. -/
def clean_latest_records (df : List Record) (min_year : ℚ) : List Record :=
  (sortedCountries df min_year).filterMap
    (pickLatest (processedRecords df min_year))

/-- The maximum qualifying year for one entity: the greatest year among the
records that pass the year/country filter and carry this entity code. -/
def maxQualYear (df : List Record) (min_year : ℚ) (c : String) : Option ℚ :=
  ((groupFor (processedRecords df min_year) c).filterMap Record.year).max?

/-! ### `build_triples` -/

/-- The hardcoded aggregate continent/region codes excluded from subjects. -/
def continentCodes : List String :=
  ["GLOBAL", "AFR", "AMR", "SEAR", "EUR", "EMR", "WPR"]

/-- `f"Country::{row['Country']}"` renders a NaN country as `"nan"`. -/
def countryStr : Option String → String
  | some s => s
  | none => "nan"

/-- `df['Country'].isin(continent_codes)` on one cell; NaN is in no set. -/
def inContinentCodes : Option String → Bool
  | some s => continentCodes.contains s
  | none => false

/-- `df['Cases'] > threshold` on one cell; a NaN comparison is false. -/
def caseExceeds (threshold : ℚ) : Option ℚ → Bool
  | some v => decide (threshold < v)
  | none => false

/-- The row mask of `build_triples`:
`(df['Cases'] > threshold) & (~df['Country'].isin(continent_codes))`. -/
def activeMask (threshold : ℚ) (r : Record) : Bool :=
  caseExceeds threshold r.cases && !(inContinentCodes r.country)

/-- `build_triples` from `src/extraction/data_processor.py`. -/
def build_triples (df : List Record) (hetionet_id : String) (threshold : ℚ) :
    List Triple :=
  (df.filter (activeMask threshold)).map fun r =>
    ("Country::" ++ countryStr r.country, "has_active_outbreak", hetionet_id)

/-! ### Cache and pipeline (`main.py`) -/

/-- `load_cached_triples` from `main.py`, applied to the JSON contents of the
`*_triples.json` files found under `data/triples/<run_date>` (an absent
directory and a directory with no matching file both yield `none`; otherwise
the files' arrays are concatenated in glob order). -/
def load_cached_triples (files : List (List Triple)) : Option (List Triple) :=
  if files.isEmpty then none else some files.flatten

/-- One entry of `disease_mapping.json`, with the defaults of `main.py`
already applied. -/
structure DiseaseConfig where
  biological_name : String
  who_code : String
  hetionet_id : String
  outbreak_threshold : ℚ
deriving DecidableEq, Repr

/-- One iteration of the per-disease loop of `run_surveillance_pipeline`:
fetch, parse, reduce to latest records, build triples. -/
def processDisease (feed : String → RawData) (cfg : DiseaseConfig) : List Triple :=
  build_triples (clean_latest_records (parse_data (feed cfg.who_code)) 2015)
    cfg.hetionet_id cfg.outbreak_threshold

/-- The fetch branch of `run_surveillance_pipeline`: `none` configs model a
`load_disease_config` failure (caught, returns `[]`); otherwise the triples of
all diseases are concatenated. -/
def fetchAllTriples (configs : Option (List DiseaseConfig))
    (feed : String → RawData) : List Triple :=
  match configs with
  | none => []
  | some cs => (cs.map (processDisease feed)).flatten

/-- How `run_surveillance_pipeline` produced its result: from the cache (no
feed fetch at all) or through the fetch loop. -/
inductive PipelineOutcome
  | cached (ts : List Triple)
  | fetched (ts : List Triple)
deriving DecidableEq, Repr

/-- `run_surveillance_pipeline` from `main.py`.  Note the Python truthiness
test `if cached:`: a cache hit whose concatenation is the empty list falls
through to the fetch branch. -/
def run_surveillance_pipeline (cacheFiles : List (List Triple))
    (configs : Option (List DiseaseConfig)) (feed : String → RawData) :
    PipelineOutcome :=
  match load_cached_triples cacheFiles with
  | some ts =>
      if ts.isEmpty then .fetched (fetchAllTriples configs feed)
      else .cached ts
  | none => .fetched (fetchAllTriples configs feed)

/-! ### `save_json_records` (`src/utils/serialiser.py`) -/

/-- Is this character collapsed to `_` by `re.sub(r'[ /\\]+', '_', ...)`? -/
def isSepChar (c : Char) : Bool :=
  c = ' ' || c = '/' || c = '\\'

/-- `re.sub(r'[ /\\]+', '_', s)`: every maximal run of separator characters
becomes a single underscore.  The flag records whether the previous character
was part of such a run. -/
def collapseGo : Bool → List Char → List Char
  | _, [] => []
  | inSep, c :: rest =>
      if isSepChar c then
        if inSep then collapseGo true rest else '_' :: collapseGo true rest
      else c :: collapseGo false rest

/-- Python `str.strip('_')`. -/
def stripUnderscores (l : List Char) : List Char :=
  ((l.dropWhile fun c => c = '_').reverse.dropWhile fun c => c = '_').reverse

/-- Python `str.lower()` (character-wise; ASCII behaviour is all the
pipeline's names use). -/
def lowerStr (s : String) : String :=
  ⟨s.data.map Char.toLower⟩

/-- The filename sanitization of `save_json_records`:
`re.sub(r'[ /\\]+', '_', name.lower()).strip('_')`. -/
def sanitize (name : String) : String :=
  ⟨stripUnderscores (collapseGo false (lowerStr name).data)⟩

/-- One date directory of the cache: filename to JSON array content. -/
abbrev FileStore := List (String × List Triple)

/-- `save_json_records` restricted to one date directory: writes (overwriting)
the file `<sanitized name>.json` holding the given triples. -/
def save_json_records (store : FileStore) (data : List Triple) (name : String) :
    FileStore :=
  let fn := sanitize name ++ ".json"
  (store.filter fun p => decide (p.1 ≠ fn)) ++ [(fn, data)]

/-- The glob `*_triples.json` (where `*` may be empty). -/
def matchesTripleGlob (fn : String) : Bool :=
  decide ("_triples.json".data <:+ fn.data)

/-- The contents of the files of a date directory matched by
`glob("*_triples.json")`. -/
def tripleFiles (store : FileStore) : List (List Triple) :=
  (store.filter fun p => matchesTripleGlob p.1).map Prod.snd

/-! ### `fetch_biomedical_context` (`src/graph/context_builder.py`) -/

/-- The Hetionet reference store: its entity vocabulary (`entity_to_id` keys)
and its labeled triples.  `none` at the call site models a store that cannot
be initialized or queried (the `except` branch re-raises). -/
structure RefStore where
  entities : List String
  triples : List Triple
deriving DecidableEq, Repr

/-- `fetch_biomedical_context`: active diseases with no match in the store are
silently dropped; no match at all yields `ok []`; a store failure escalates as
an error. -/
def fetch_biomedical_context (store : Option RefStore)
    (active_diseases : List String)
    (relations : List String := ["CtD", "CpD"]) : Except String (List Triple) :=
  match store with
  | none => .error "Failed to process biomedical context"
  | some st =>
      let target_ids := active_diseases.filter fun d => st.entities.contains d
      if target_ids.isEmpty then .ok []
      else
        let relevant := st.triples.filter fun t =>
          target_ids.contains t.1 || target_ids.contains t.2.2
        .ok (relevant.filter fun t => relations.contains t.2.1)

/-- Did the call succeed? -/
def isOkExcept : Except String (List Triple) → Bool
  | .ok _ => true
  | .error _ => false

/-! ### `upload_triples` (`src/storage/neo4j_manager.py`) -/

/-- Is `"::"` a substring (Python `"::" in s`)? -/
def hasSep : List Char → Bool
  | c1 :: c2 :: rest =>
      if c1 = ':' ∧ c2 = ':' then true else hasSep (c2 :: rest)
  | _ => false

/-- The characters before the first occurrence of `"::"`
(Python `s.split("::")[0]`). -/
def beforeSep : List Char → List Char
  | c1 :: c2 :: rest =>
      if c1 = ':' ∧ c2 = ':' then [] else c1 :: beforeSep (c2 :: rest)
  | l => l

/-- `s.split("::")[0] if "::" in s else "Entity"`. -/
def labelOf (s : String) : String :=
  if hasSep s.data then ⟨beforeSep s.data⟩ else "Entity"

/-- One element of the `$batches` parameter array of the factual upsert. -/
structure BatchEntry where
  s_id : String
  s_label : String
  rel : String
  o_id : String
  o_label : String
deriving DecidableEq, Repr

/-- Python `str.upper()` (character-wise; ASCII behaviour is all the
pipeline's predicates use). -/
def upperStr (s : String) : String :=
  ⟨s.data.map Char.toUpper⟩

/-- Python `str.replace(" ", "_")`: the pattern is a single character, so the
replacement is character-wise. -/
def spacesToUnderscores (s : String) : String :=
  ⟨s.data.map fun c => if c = ' ' then '_' else c⟩

/-- `p.upper().replace(" ", "_")`: the relationship type of the upsert. -/
def relType (p : String) : String :=
  spacesToUnderscores (upperStr p)

/-- The batch entry built for one triple in `upload_triples`. -/
def mkBatchEntry : Triple → BatchEntry
  | (s, p, o) =>
      ⟨s, labelOf s, relType p, o, labelOf o⟩

/-- One HTTPS request to the query API: a Cypher statement plus its `$batches`
parameter array. -/
structure CypherRequest where
  statement : String
  batches : List BatchEntry
deriving DecidableEq, Repr

/-- The clear statement sent when `clear_first` holds. -/
def clearStatement : String := "MATCH (n) DETACH DELETE n"

/-- The batched factual-upsert statement (UNWIND over `$batches` with MERGE of
both endpoints and of the relationship). -/
def upsertStatement : String := "UNWIND batches AS item MERGE nodes and relationship"

/-- `upload_triples`: the sequence of requests sent for one call — an optional
clear, then a single request carrying every triple's batch entry. -/
def upload_triples (triples : List Triple) (clear_first : Bool) :
    List CypherRequest :=
  (if clear_first then [⟨clearStatement, []⟩] else []) ++
    [⟨upsertStatement, triples.map mkBatchEntry⟩]

/-! ### Helper lemmas -/

theorem string_append_cancel {a b c : String} (h : a ++ b = a ++ c) : b = c := by
  have hd : a.data ++ b.data = a.data ++ c.data := by
    rw [← String.data_append, ← String.data_append, h]
  exact congrArg String.mk (List.append_cancel_left hd)

theorem mem_groupFor {rs : List Record} {c : String} {r : Record} :
    r ∈ groupFor rs c ↔ r ∈ rs ∧ r.country = some c := by
  simp [groupFor, List.mem_filter]

theorem pickLatest_eq_some {ps : List Record} {c : String} {r : Record}
    (h : pickLatest ps c = some r) :
    r ∈ ps ∧ r.country = some c ∧
      r.year = ((groupFor ps c).filterMap Record.year).max? := by
  unfold pickLatest at h
  cases hm : ((groupFor ps c).filterMap Record.year).max? with
  | none => rw [hm] at h; cases h
  | some m =>
      rw [hm] at h
      have hmem := List.mem_of_find?_eq_some h
      have hpred := List.find?_some h
      rw [mem_groupFor] at hmem
      refine ⟨hmem.1, hmem.2, ?_⟩
      simpa using hpred

theorem pickLatest_isSome {ps : List Record} {c : String}
    (hy : ∀ r ∈ ps, r.year.isSome)
    (hc : c ∈ ps.filterMap Record.country) :
    ∃ r, pickLatest ps c = some r := by
  obtain ⟨r₀, hr₀, hr₀c⟩ := List.mem_filterMap.mp hc
  have hr₀g : r₀ ∈ groupFor ps c := mem_groupFor.mpr ⟨hr₀, hr₀c⟩
  obtain ⟨y₀, hy₀⟩ := Option.isSome_iff_exists.mp (hy r₀ hr₀)
  have hy₀mem : y₀ ∈ (groupFor ps c).filterMap Record.year :=
    List.mem_filterMap.mpr ⟨r₀, hr₀g, hy₀⟩
  cases hm : ((groupFor ps c).filterMap Record.year).max? with
  | none =>
      rw [List.max?_eq_none_iff] at hm
      rw [hm] at hy₀mem
      cases hy₀mem
  | some m =>
      have hmmem : m ∈ (groupFor ps c).filterMap Record.year :=
        List.max?_mem (fun a b => max_choice a b) hm
      obtain ⟨r₁, hr₁, hr₁y⟩ := List.mem_filterMap.mp hmmem
      have hsome : ((groupFor ps c).find? fun r => decide (r.year = some m)).isSome :=
        List.find?_isSome.mpr ⟨r₁, hr₁, by simp [hr₁y]⟩
      obtain ⟨r, hr⟩ := Option.isSome_iff_exists.mp hsome
      refine ⟨r, ?_⟩
      unfold pickLatest
      rw [hm]
      exact hr

theorem mem_processedRecords {df : List Record} {m : ℚ} {r : Record} :
    r ∈ processedRecords df m ↔ r ∈ df ∧ qualifies m r = true :=
  List.mem_filter

theorem processed_isSome {df : List Record} {m : ℚ} {r : Record}
    (h : r ∈ processedRecords df m) : r.year.isSome ∧ r.country.isSome := by
  have hq := (mem_processedRecords.mp h).2
  unfold qualifies at hq
  rw [Bool.and_eq_true] at hq
  refine ⟨?_, hq.2⟩
  cases hy : r.year with
  | none => rw [hy] at hq; simp at hq
  | some y => rfl

theorem mem_sortedCountries {df : List Record} {m : ℚ} {c : String} :
    c ∈ sortedCountries df m ↔
      c ∈ (processedRecords df m).filterMap Record.country := by
  unfold sortedCountries
  rw [(List.perm_insertionSort strLe _).mem_iff, List.mem_dedup]

theorem countries_of_clean (df : List Record) (m : ℚ) :
    (clean_latest_records df m).filterMap Record.country = sortedCountries df m := by
  unfold clean_latest_records
  have hy : ∀ r ∈ processedRecords df m, r.year.isSome :=
    fun r hr => (processed_isSome hr).1
  have key : ∀ l : List String,
      (∀ c ∈ l, c ∈ (processedRecords df m).filterMap Record.country) →
      ((l.filterMap (pickLatest (processedRecords df m))).filterMap Record.country) = l := by
    intro l
    induction l with
    | nil => intro _; rfl
    | cons c l' ih =>
        intro hl
        obtain ⟨r, hr⟩ := pickLatest_isSome hy (hl c (List.mem_cons_self c l'))
        have hrc : r.country = some c := (pickLatest_eq_some hr).2.1
        rw [List.filterMap_cons, hr, List.filterMap_cons, hrc,
          ih fun x hx => hl x (List.mem_cons_of_mem _ hx)]
  exact key _ fun c hc => mem_sortedCountries.mp hc

theorem mem_clean_iff {df : List Record} {m : ℚ} {r : Record} :
    r ∈ clean_latest_records df m ↔
      ∃ c ∈ sortedCountries df m,
        pickLatest (processedRecords df m) c = some r := by
  unfold clean_latest_records
  exact List.mem_filterMap

/-- In the selector's output, the record of a given country is unique: it is
what `pickLatest` returns for that country. -/
theorem clean_country_unique {df : List Record} {m : ℚ} {r : Record} {c : String}
    (hr : r ∈ clean_latest_records df m) (hc : r.country = some c) :
    pickLatest (processedRecords df m) c = some r := by
  obtain ⟨c', _, hp⟩ := mem_clean_iff.mp hr
  have : r.country = some c' := (pickLatest_eq_some hp).2.1
  rw [hc] at this
  cases this
  exact hp

theorem mem_build_triples {df : List Record} {hid : String} {t : ℚ} {tr : Triple} :
    tr ∈ build_triples df hid t ↔
      ∃ r ∈ df, activeMask t r = true ∧
        tr = ("Country::" ++ countryStr r.country, "has_active_outbreak", hid) := by
  unfold build_triples
  rw [List.mem_map]
  constructor
  · rintro ⟨r, hr, rfl⟩
    exact ⟨r, (List.mem_filter.mp hr).1, (List.mem_filter.mp hr).2, rfl⟩
  · rintro ⟨r, hr, hm, rfl⟩
    exact ⟨r, List.mem_filter.mpr ⟨hr, hm⟩, rfl⟩

/-! ### Claim theorems -/

/-- C3: for every record sequence and cutoff year, `clean_latest_records`
outputs exactly one record per distinct entity code among the qualifying
records (non-missing entity, year at or above the cutoff); each output
record's year is the maximum qualifying year of its entity; the output's
entity codes are a duplicate-free subset of the input's entity codes; and the
output is sorted by entity code. -/
theorem clean_latest_records_spec (df : List Record) (m : ℚ) :
    ((clean_latest_records df m).filterMap Record.country).Nodup
    ∧ (∀ c : String,
        c ∈ (clean_latest_records df m).filterMap Record.country ↔
          c ∈ (df.filter (qualifies m)).filterMap Record.country)
    ∧ (∀ r ∈ clean_latest_records df m,
        ∃ c, r.country = some c ∧ r.year = maxQualYear df m c)
    ∧ (∀ c : String,
        c ∈ (clean_latest_records df m).filterMap Record.country →
          c ∈ df.filterMap Record.country)
    ∧ List.Sorted strLe ((clean_latest_records df m).filterMap Record.country) := by
  rw [countries_of_clean]
  refine ⟨?_, ?_, ?_, ?_, ?_⟩
  · exact (List.nodup_dedup _).perm (List.perm_insertionSort strLe _).symm
  · exact fun c => mem_sortedCountries
  · intro r hr
    obtain ⟨c, _, hp⟩ := mem_clean_iff.mp hr
    obtain ⟨_, hc, hy⟩ := pickLatest_eq_some hp
    exact ⟨c, hc, hy⟩
  · intro c hc
    obtain ⟨r, hr, hrc⟩ := List.mem_filterMap.mp (mem_sortedCountries.mp hc)
    exact List.mem_filterMap.mpr ⟨r, (mem_processedRecords.mp hr).1, hrc⟩
  · exact List.sorted_insertionSort strLe _

/-- C3 witness: on the spec's example run the selector keeps `GLOBAL` and `KE`
with their 2020 records, and the maximum-year conjunct holds for the `KE`
output row. -/
theorem clean_latest_records_spec_witness :
    ∃ c, (Record.mk (some "KE") (some 2020) (some 2200)).country = some c ∧
      (Record.mk (some "KE") (some 2020) (some 2200)).year =
        maxQualYear
          [⟨some "KE", some 2019, some 1500⟩, ⟨some "KE", some 2020, some 2200⟩,
           ⟨some "GLOBAL", some 2020, some 500000⟩] 2015 c :=
  (clean_latest_records_spec
      [⟨some "KE", some 2019, some 1500⟩, ⟨some "KE", some 2020, some 2200⟩,
       ⟨some "GLOBAL", some 2020, some 500000⟩] 2015).2.2.1
    ⟨some "KE", some 2020, some 2200⟩ (by decide)

/-- C1 counterexample: the claim "a `has_active_outbreak` triple is emitted
iff the entity's case count strictly exceeds the threshold" fails as stated:
the aggregate code `AFR` with 2000 cases strictly exceeds the threshold 1000,
yet `build_triples` emits no triple at all for it. -/
theorem build_triples_iff_counterexample :
    caseExceeds 1000 (Record.mk (some "AFR") (some 2020) (some 2000)).cases = true
    ∧ build_triples [⟨some "AFR", some 2020, some 2000⟩] "Disease::DOID:8622" 1000
        = [] := by
  decide

/-- C1 (amended): for a record set whose entities are all non-missing, a
`has_active_outbreak` triple for an entity is emitted iff some record of that
entity has a case count strictly exceeding the threshold AND the entity code
is outside the aggregate-region exclusion set; moreover a case count equal to
the threshold never satisfies the strict comparison, so an entity at the
boundary yields no triple. -/
theorem build_triples_iff (df : List Record) (hid : String) (t : ℚ) (c : String)
    (hdf : ∀ r ∈ df, r.country.isSome) :
    (("Country::" ++ c, "has_active_outbreak", hid) ∈ build_triples df hid t ↔
      ∃ r ∈ df, r.country = some c ∧ caseExceeds t r.cases = true ∧
        c ∉ continentCodes)
    ∧ ∀ v : ℚ, caseExceeds v (some v) = false := by
  constructor
  · constructor
    · intro hmem
      obtain ⟨r, hr, hmask, heq⟩ := mem_build_triples.mp hmem
      obtain ⟨cr, hcr⟩ := Option.isSome_iff_exists.mp (hdf r hr)
      have h1 : "Country::" ++ c = "Country::" ++ countryStr r.country :=
        congrArg Prod.fst heq
      have h2 : c = countryStr r.country := string_append_cancel h1
      rw [hcr] at h2
      simp only [countryStr] at h2
      subst h2
      unfold activeMask at hmask
      rw [Bool.and_eq_true, Bool.not_eq_true'] at hmask
      refine ⟨r, hr, hcr, hmask.1, ?_⟩
      intro habs
      have hin : inContinentCodes r.country = true := by
        rw [hcr]
        simpa [inContinentCodes] using habs
      rw [hin] at hmask
      exact Bool.noConfusion hmask.2
    · rintro ⟨r, hr, hc, hcase, hnotin⟩
      refine mem_build_triples.mpr ⟨r, hr, ?_, by simp [hc, countryStr]⟩
      unfold activeMask
      rw [Bool.and_eq_true, Bool.not_eq_true']
      refine ⟨hcase, ?_⟩
      rw [hc]
      simpa [inContinentCodes] using hnotin
  · intro v
    simp [caseExceeds]

/-- C1 witness: in a one-record set where `KE` reports 2200 cases against a
threshold of 1000, the amended iff yields the `KE` outbreak triple. -/
theorem build_triples_iff_witness :
    ("Country::" ++ "KE", "has_active_outbreak", "Disease::DOID:8622") ∈
      build_triples [⟨some "KE", some 2020, some 2200⟩] "Disease::DOID:8622" 1000 :=
  (build_triples_iff [⟨some "KE", some 2020, some 2200⟩] "Disease::DOID:8622"
      1000 "KE" (by decide)).1.mpr
    ⟨⟨some "KE", some 2020, some 2200⟩, by decide, rfl, by decide, by decide⟩

/-- C2: no triple emitted by `build_triples` has a subject whose entity code
is one of the aggregate-region codes, whatever the input records, disease
identifier and threshold. -/
theorem build_triples_excludes_regions (df : List Record) (hid : String)
    (t : ℚ) (s p o : String)
    (hmem : (s, p, o) ∈ build_triples df hid t)
    (c : String) (hc : c ∈ continentCodes) :
    s ≠ "Country::" ++ c := by
  obtain ⟨r, _, hmask, heq⟩ := mem_build_triples.mp hmem
  have hs : s = "Country::" ++ countryStr r.country := congrArg Prod.fst heq
  unfold activeMask at hmask
  rw [Bool.and_eq_true, Bool.not_eq_true'] at hmask
  intro habs
  have hcc : countryStr r.country = c :=
    string_append_cancel (hs.symm.trans habs)
  cases hco : r.country with
  | none =>
      rw [hco] at hcc
      simp only [countryStr] at hcc
      rw [← hcc] at hc
      exact absurd hc (by decide)
  | some x =>
      rw [hco] at hcc
      simp only [countryStr] at hcc
      subst hcc
      have hin : inContinentCodes r.country = true := by
        rw [hco]
        simpa [inContinentCodes] using hc
      rw [hin] at hmask
      exact Bool.noConfusion hmask.2

/-- C2 witness: with `KE` above threshold its triple is emitted, and the
theorem says its subject differs from the excluded `Country::AFR`. -/
theorem build_triples_excludes_regions_witness :
    "Country::KE" ≠ "Country::" ++ "AFR" :=
  build_triples_excludes_regions [⟨some "KE", some 2020, some 2200⟩] "D" 1000
    "Country::KE" "has_active_outbreak" "D" (by decide) "AFR" (by decide)

/-- C10: a record whose case count is missing can survive the latest-record
selector (the selector does not drop rows on missing `Cases`), yet the triple
builder never emits an outbreak triple for it: the strict threshold comparison
is false on a missing value. -/
theorem missing_cases_never_triple (df : List Record) (m t : ℚ)
    (hid c : String) (r : Record)
    (hr : r ∈ clean_latest_records df m) (hc : r.country = some c)
    (hcase : r.cases = none) :
    ("Country::" ++ c, "has_active_outbreak", hid) ∉
      build_triples (clean_latest_records df m) hid t := by
  intro hmem
  obtain ⟨r', hr', hmask, heq⟩ := mem_build_triples.mp hmem
  obtain ⟨c₁, _, hp₁⟩ := mem_clean_iff.mp hr'
  have hc₁ : r'.country = some c₁ := (pickLatest_eq_some hp₁).2.1
  have h1 : "Country::" ++ c = "Country::" ++ countryStr r'.country :=
    congrArg Prod.fst heq
  have hcc : c = countryStr r'.country := string_append_cancel h1
  rw [hc₁] at hcc
  simp only [countryStr] at hcc
  have hr'c : r'.country = some c := by rw [hc₁, hcc]
  have hur' := clean_country_unique hr' hr'c
  have hur := clean_country_unique hr hc
  rw [hur'] at hur
  have hrr : r' = r := Option.some.inj hur
  subst hrr
  unfold activeMask at hmask
  rw [hcase] at hmask
  simp [caseExceeds] at hmask

/-- C10 witness: a `KE` record with a missing case count survives the
selector, and no `KE` outbreak triple is built from the selector's output. -/
theorem missing_cases_never_triple_witness :
    ("Country::" ++ "KE", "has_active_outbreak", "D") ∉
      build_triples
        (clean_latest_records [⟨some "KE", some 2020, none⟩] 2015) "D" 1000 :=
  missing_cases_never_triple [⟨some "KE", some 2020, none⟩] 2015 1000 "D" "KE"
    ⟨some "KE", some 2020, none⟩ (by decide) rfl rfl

/-- C4 counterexample: the claim "if at least one triple artifact file exists
for the run date, the pipeline performs zero feed fetches and returns the
cached concatenation" fails as stated: with one cached file containing an
empty JSON array, `if cached:` is falsy and the pipeline goes through the
fetch loop instead of returning the cached (empty) concatenation. -/
theorem run_pipeline_cache_counterexample :
    run_surveillance_pipeline [[]]
        (some [⟨"measles", "WHS3_62", "Disease::DOID:8622", 1000⟩])
        (fun _ => .list [⟨.val "KE", .num 2020, .num 2200⟩])
      = .fetched [("Country::KE", "has_active_outbreak", "Disease::DOID:8622")]
    ∧ ([[]] : List (List Triple)) ≠ [] := by
  decide

/-- C4 (amended): if at least one triple artifact file exists for the run date
AND the concatenation of the cached files' contents is non-empty, the pipeline
performs zero feed fetches and returns exactly that concatenation,
unchanged. -/
theorem run_pipeline_uses_cache (cacheFiles : List (List Triple))
    (configs : Option (List DiseaseConfig)) (feed : String → RawData)
    (hne : cacheFiles ≠ []) (h : cacheFiles.flatten ≠ []) :
    run_surveillance_pipeline cacheFiles configs feed
      = .cached cacheFiles.flatten := by
  have hload : load_cached_triples cacheFiles = some cacheFiles.flatten := by
    unfold load_cached_triples
    rw [if_neg]
    simpa [List.isEmpty_iff] using hne
  unfold run_surveillance_pipeline
  rw [hload]
  simp only
  rw [if_neg]
  simpa [List.isEmpty_iff] using h

/-- C4 witness: a cached file holding one triple short-circuits the run. -/
theorem run_pipeline_uses_cache_witness :
    run_surveillance_pipeline [[("Country::KE", "has_active_outbreak", "D")]]
        none (fun _ => .notList)
      = .cached ([[("Country::KE", "has_active_outbreak", "D")]] :
          List (List Triple)).flatten :=
  run_pipeline_uses_cache [[("Country::KE", "has_active_outbreak", "D")]] none
    (fun _ => .notList) (by decide) (by decide)

/-- C9: when every cached triple file for the run date holds an empty JSON
array, the concatenated cache result is empty, so the pipeline treats the
cache as absent and proceeds through configuration loading and the feed-fetch
loop. -/
theorem run_pipeline_empty_cache_refetches (cacheFiles : List (List Triple))
    (configs : Option (List DiseaseConfig)) (feed : String → RawData)
    (hne : cacheFiles ≠ []) (hall : ∀ f ∈ cacheFiles, f = []) :
    run_surveillance_pipeline cacheFiles configs feed
      = .fetched (fetchAllTriples configs feed) := by
  have hflat : cacheFiles.flatten = [] := by
    rw [List.flatten_eq_nil_iff]
    exact hall
  have hload : load_cached_triples cacheFiles = some cacheFiles.flatten := by
    unfold load_cached_triples
    rw [if_neg]
    simpa [List.isEmpty_iff] using hne
  unfold run_surveillance_pipeline
  rw [hload, hflat]
  rfl

/-- C9 witness: two cached files, both empty arrays, and the run refetches. -/
theorem run_pipeline_empty_cache_refetches_witness :
    run_surveillance_pipeline [[], []] none (fun _ => .notList)
      = .fetched (fetchAllTriples none (fun _ => .notList)) :=
  run_pipeline_empty_cache_refetches [[], []] none (fun _ => .notList)
    (by decide) (by decide)

/-- C5: persisting a triple set through the serializer under a run date and
then loading the cached triples for that date returns exactly the persisted
set (the pipeline always persists under a name whose sanitized form ends in
`_triples`, which is what the loader's glob requires). -/
theorem cache_roundtrip (ts : List Triple) (name : String)
    (h : "_triples".data <:+ (sanitize name).data) :
    load_cached_triples (tripleFiles (save_json_records [] ts name))
      = some ts := by
  have hglob : matchesTripleGlob (sanitize name ++ ".json") = true := by
    unfold matchesTripleGlob
    rw [decide_eq_true_eq, String.data_append]
    have hjs : "_triples.json".data = "_triples".data ++ ".json".data := by decide
    rw [hjs]
    obtain ⟨pre, hpre⟩ := h
    exact ⟨pre, by rw [← List.append_assoc, hpre]⟩
  simp [save_json_records, tripleFiles, load_cached_triples, hglob]

/-- C5 witness: round-trip of a one-triple set saved as `measles_triples`. -/
theorem cache_roundtrip_witness :
    load_cached_triples
        (tripleFiles
          (save_json_records [] [("Country::KE", "has_active_outbreak", "D")]
            "Measles_triples"))
      = some [("Country::KE", "has_active_outbreak", "D")] :=
  cache_roundtrip [("Country::KE", "has_active_outbreak", "D")]
    "Measles_triples" (by decide)

/-- C6: the knowledge fuser errors exactly when the reference store cannot be
initialized or queried (modelled as the `none` store); with a working store it
never raises, dropping unmatched active-disease identifiers changes nothing
(their matched companions' triples are still returned), and an all-unmatched
active list yields `ok []`, not an error. -/
theorem fetch_biomedical_context_policy :
    (∀ (active rels : List String),
        isOkExcept (fetch_biomedical_context none active rels) = false)
    ∧ (∀ (st : RefStore) (active rels : List String),
        isOkExcept (fetch_biomedical_context (some st) active rels) = true)
    ∧ (∀ (st : RefStore) (active rels : List String),
        fetch_biomedical_context (some st) active rels =
          fetch_biomedical_context (some st)
            (active.filter fun d => st.entities.contains d) rels)
    ∧ (∀ (st : RefStore) (active rels : List String),
        fetch_biomedical_context (some st)
            (active.filter fun d => !st.entities.contains d) rels = .ok []) := by
  refine ⟨fun _ _ => rfl, ?_, ?_, ?_⟩
  · intro st active rels
    simp only [fetch_biomedical_context]
    rw [apply_ite isOkExcept]
    simp [isOkExcept]
  · intro st active rels
    simp only [fetch_biomedical_context, List.filter_filter, Bool.and_self]
  · intro st active rels
    simp only [fetch_biomedical_context, List.filter_filter]
    have hfalse :
        (active.filter fun d =>
          st.entities.contains d && !st.entities.contains d) = [] := by
      have : ∀ d, (st.entities.contains d && !st.entities.contains d) = false := by
        intro d
        cases st.entities.contains d <;> rfl
      simp [this]
    rw [hfalse]
    rfl

theorem hasSep_append_sep (a b : List Char) :
    hasSep (a ++ ':' :: ':' :: b) = true := by
  induction a with
  | nil => simp [hasSep]
  | cons c rest ih =>
      cases rest with
      | nil => simp [hasSep]
      | cons d rest' =>
          rw [List.cons_append]
          rw [List.cons_append] at ih
          by_cases hcd : c = ':' ∧ d = ':'
          · simp [hasSep, hcd]
          · simpa [hasSep, hcd] using ih

theorem beforeSep_append (a b : List Char) (h : hasSep (a ++ [':']) = false) :
    beforeSep (a ++ ':' :: ':' :: b) = a := by
  induction a with
  | nil => simp [beforeSep]
  | cons c rest ih =>
      cases rest with
      | nil =>
          have hc : ¬ c = ':' := by
            intro hc
            subst hc
            simp [hasSep] at h
          simp [beforeSep, hasSep, hc]
      | cons d rest' =>
          rw [List.cons_append, List.cons_append] at h
          have hcd : ¬ (c = ':' ∧ d = ':') := by
            intro hcd
            simp [hasSep, hcd] at h
          have htail : hasSep ((d :: rest') ++ [':']) = false := by
            rw [List.cons_append]
            simpa [hasSep, hcd] using h
          have hrec := ih htail
          rw [List.cons_append] at hrec
          rw [List.cons_append, List.cons_append]
          simp only [beforeSep, if_neg hcd]
          rw [hrec]

theorem labelOf_namespaced (a b : String) (h : hasSep (a.data ++ [':']) = false) :
    labelOf (a ++ "::" ++ b) = a := by
  have hd : (a ++ "::" ++ b).data = a.data ++ ':' :: ':' :: b.data := by
    rw [String.data_append, String.data_append, List.append_assoc]
    rfl
  unfold labelOf
  rw [hd, hasSep_append_sep, if_pos rfl, beforeSep_append a.data b.data h]

/-- C7: one `upload_triples` call sends a single factual-upsert request (after
the optional clear) carrying every triple's batch entry in one parameter
array; each entry's subject and object labels are the substring of the
respective identifier before the first `::` (or `Entity` when the identifier
has no `::`), and its relationship type is the predicate uppercased with each
space replaced by an underscore. -/
theorem upload_triples_spec (triples : List Triple) (clear_first : Bool) :
    ((upload_triples triples clear_first).getLast? =
        some ⟨upsertStatement, triples.map mkBatchEntry⟩)
    ∧ ((upload_triples triples clear_first).length = if clear_first then 2 else 1)
    ∧ (∀ s p o a b : String, hasSep (a.data ++ [':']) = false →
        s = a ++ "::" ++ b → (mkBatchEntry (s, p, o)).s_label = a)
    ∧ (∀ s p o a b : String, hasSep (a.data ++ [':']) = false →
        o = a ++ "::" ++ b → (mkBatchEntry (s, p, o)).o_label = a)
    ∧ (∀ s p o : String, hasSep s.data = false →
        (mkBatchEntry (s, p, o)).s_label = "Entity")
    ∧ (∀ s p o : String, hasSep o.data = false →
        (mkBatchEntry (s, p, o)).o_label = "Entity")
    ∧ (∀ s p o : String,
        (mkBatchEntry (s, p, o)).rel = spacesToUnderscores (upperStr p)) := by
  refine ⟨?_, ?_, ?_, ?_, ?_, ?_, fun s p o => rfl⟩
  · cases clear_first <;> rfl
  · cases clear_first <;> rfl
  · rintro s p o a b h rfl
    exact labelOf_namespaced a b h
  · rintro s p o a b h rfl
    exact labelOf_namespaced a b h
  · intro s p o h
    simp [mkBatchEntry, labelOf, h]
  · intro s p o h
    simp [mkBatchEntry, labelOf, h]

/-- C7 witness: the batch entry of `Country::KE` carries the label `Country`,
obtained from the theorem at that concrete identifier. -/
theorem upload_triples_spec_witness :
    (mkBatchEntry ("Country" ++ "::" ++ "KE", "has active outbreak",
        "Disease::D")).s_label = "Country" :=
  (upload_triples_spec [] false).2.2.1 ("Country" ++ "::" ++ "KE")
    "has active outbreak" "Disease::D" "Country" "KE" (by decide) rfl

/-- C8: `parse_data` never fails on malformed cells — a time or value cell
that does not coerce to a number is marked missing (`none`) — while an input
failing shape validation (not a list, or lacking any of the three expected
columns) yields an empty record list instead of an error. -/
theorem parse_data_error_policy :
    (parse_data .notList = [])
    ∧ (∀ rs : List RawRecord, columnsPresent rs = false →
        parse_data (.list rs) = [])
    ∧ (∀ rs : List RawRecord, columnsPresent rs = true →
        (parse_data (.list rs)).length = rs.length
        ∧ ∀ (i : ℕ) (r : RawRecord), rs[i]? = some r →
            (parse_data (.list rs))[i]? =
              some ⟨asCountry r.spatialDim, coerceNum r.timeDim,
                coerceNum r.numericValue⟩)
    ∧ (∀ s, coerceNum (.nonNum s) = none)
    ∧ coerceNum .null = none
    ∧ coerceNum .absent = none := by
  refine ⟨rfl, ?_, ?_, fun s => rfl, rfl, rfl⟩
  · intro rs h
    simp [parse_data, h]
  · intro rs h
    constructor
    · simp [parse_data, h]
    · intro i r hir
      simp [parse_data, h, List.getElem?_map, hir]

/-- C8 witness: a row whose value cell is the non-numeric string `"x"` parses
to a record with a missing case count rather than raising. -/
theorem parse_data_error_policy_witness :
    (parse_data (.list [⟨.val "KE", .num 2020, .nonNum "x"⟩]))[0]? =
      some ⟨some "KE", some 2020, none⟩ :=
  (parse_data_error_policy.2.2.1 [⟨.val "KE", .num 2020, .nonNum "x"⟩]
      (by decide)).2 0 ⟨.val "KE", .num 2020, .nonNum "x"⟩ rfl

end Hercule
